import Mathlib

/-!
Shallow embedding of the bioanalyzer-backend extraction pipeline.

Strings are modelled as `List Char` internally (Python `str`), rationals
(`ℚ`) stand in for Python floats, and Python `dict`s decoded from JSON are
modelled as association lists with unique keys.  Fallible operations return
`Option`.  Each definition is translated from the corresponding Python
function in the repository; external standard-library behaviour
(`json.loads`, `json.dumps`, `re.search`, `datetime.fromisoformat`) is
modelled by executable Lean functions restricted to the shapes the
repository uses.
-/

namespace Bioanalyzer

/-! ## Python string primitives -/

/-- ASCII lower-casing of one character, as Python `str.lower` does on ASCII. -/
def pyLowerChar (c : Char) : Char :=
  if 'A' ≤ c ∧ c ≤ 'Z' then Char.ofNat (c.toNat + 32) else c

/-- Python `str.lower` (ASCII fragment). -/
def pyLower (s : List Char) : List Char := s.map pyLowerChar

/-- Python whitespace characters recognised by `str.strip` and `\s` (ASCII fragment). -/
def isPySpace (c : Char) : Bool :=
  c = ' ' || c = '\t' || c = '\n' || c = '\r' || c = '\x0b' || c = '\x0c'

/-- ASCII decimal digit test (`\d`, `str.isdigit` on ASCII). -/
def isAsciiDigit (c : Char) : Bool := '0' ≤ c && c ≤ '9'

/-- Python `str.strip()`: remove leading and trailing whitespace. -/
def pyStrip (s : List Char) : List Char :=
  ((s.dropWhile isPySpace).reverse.dropWhile isPySpace).reverse

/-- Python substring test `needle in hay`. -/
def containsSub (needle : List Char) : List Char → Bool
  | [] => needle.isEmpty
  | c :: rest => needle.isPrefixOf (c :: rest) || containsSub needle rest

/-- Python `str.find(c)`: index of the first occurrence of `c`, or `-1`. -/
def pyFind (s : List Char) (c : Char) : Int :=
  match s.findIdx? (· = c) with
  | some i => (i : Int)
  | none => -1

/-- Python `str.rfind(c)`: index of the last occurrence of `c`, or `-1`. -/
def pyRfind (s : List Char) (c : Char) : Int :=
  match s.reverse.findIdx? (· = c) with
  | some i => (s.length : Int) - 1 - (i : Int)
  | none => -1

/-- Python slice `s[i:j]` for `0 ≤ i ≤ j` (the only case the code exercises). -/
def pySlice (s : List Char) (i j : Nat) : List Char :=
  (s.drop i).take (j - i)

/-- Python `str.isdigit` (ASCII fragment): non-empty and all digits. -/
def pyIsDigit (s : List Char) : Bool := !s.isEmpty && s.all isAsciiDigit

/-! ## A small backtracking regex engine

Models CPython `re.search` for the concrete patterns used by the fallback
extractor: literals, character classes, greedy `?`, `\s*`, `\s+`, bounded
greedy repetition `\d{2,4}`, ordered alternation and capture groups.  A
`Matcher` maps the remaining input to the list of possible matches in
backtracking priority order; each match is the remaining suffix plus the
captured groups (in group-number order, `none` for a group that did not
participate). -/

/-- Captured groups of one match attempt. -/
abbrev Caps := List (Option (List Char))

/-- A matcher returns all matches at the current position, best first. -/
abbrev Matcher := List Char → List (List Char × Caps)

/-- Match the empty pattern. -/
def mEps : Matcher := fun s => [(s, [])]

/-- Match a literal word. -/
def mLit (w : List Char) : Matcher := fun s =>
  if w.isPrefixOf s then [(s.drop w.length, [])] else []

/-- Match one character of a class. -/
def mClass (p : Char → Bool) : Matcher := fun s =>
  match s with
  | [] => []
  | c :: rest => if p c then [(rest, [])] else []

/-- Sequence two matchers, concatenating captures. -/
def mSeq (a b : Matcher) : Matcher := fun s =>
  (a s).flatMap fun r1 => (b r1.1).map fun r2 => (r2.1, r1.2 ++ r2.2)

/-- Sequence a list of matchers. -/
def mSeqs (ms : List Matcher) : Matcher := ms.foldr mSeq mEps

/-- Ordered alternation: the left alternative is preferred. -/
def mAlt (a b : Matcher) : Matcher := fun s => a s ++ b s

/-- Greedy `?`: prefer matching `a`; `pad` holds one `none` per capture
group inside `a`, emitted when the optional part is skipped. -/
def mOpt (a : Matcher) (pad : Caps) : Matcher := fun s => a s ++ [(s, pad)]

/-- Wrap a matcher in a capture group (the new group numbers first). -/
def mCap (a : Matcher) : Matcher := fun s =>
  (a s).map fun r => (r.1, some (s.take (s.length - r.1.length)) :: r.2)

/-- Greedy `cls*`: consume the longest run first, then backtrack. -/
def mStarClass (p : Char → Bool) : Matcher := fun s =>
  let run := (s.takeWhile p).length
  (List.range (run + 1)).map fun k => (s.drop (run - k), [])

/-- Greedy `cls+`. -/
def mPlusClass (p : Char → Bool) : Matcher := mSeq (mClass p) (mStarClass p)

/-- Greedy bounded repetition `cls{lo,hi}`: longest first. -/
def mRepClass (p : Char → Bool) (lo hi : Nat) : Matcher := fun s =>
  (List.range (hi - lo + 1)).filterMap fun i =>
    let n := hi - i
    let pre := s.take n
    if pre.length = n && pre.all p then some (s.drop n, []) else none

/-- First match of `m` at the current position, if any. -/
def mFirst (m : Matcher) (s : List Char) : Option Caps :=
  match m s with
  | r :: _ => some r.2
  | [] => none

/-- CPython `re.search`: try each start position left to right and return
the captures of the first match found. -/
def mSearch (m : Matcher) : List Char → Option Caps
  | [] => mFirst m []
  | c :: rest =>
    match mFirst m (c :: rest) with
    | some g => some g
    | none => mSearch m rest

/-- Literal matcher from a string literal. -/
def lit (s : String) : Matcher := mLit s.data

/-- The `\s*`. -/
def sp0 : Matcher := mStarClass isPySpace

/-- The `\s+`. -/
def sp1 : Matcher := mPlusClass isPySpace

/-- The `\d{2,4}`. -/
def digits24 : Matcher := mRepClass isAsciiDigit 2 4

/-! ## Heuristic fallback extractor
(`app/utils/fallback_extractor.py`, class `BasicFieldExtractor`) -/

/-- One extracted field, as the dict shape every extraction path produces:
status / value / confidence / reason_if_missing / suggestions. -/
structure FieldResult where
  status : String
  value : Option String
  confidence : ℚ
  reason_if_missing : Option String
  suggestions : Option String
deriving Repr, DecidableEq

/-- The `BasicFieldExtractor.HOST_SPECIES_KEYWORDS` (dict in insertion order). -/
def HOST_SPECIES_KEYWORDS : List (String × List String) :=
  [("human", ["human", "homo sapiens", "patient", "participants"]),
   ("mouse", ["mouse", "mice", "murine", "mus musculus"]),
   ("rat", ["rat", "rattus"]),
   ("zebrafish", ["zebrafish", "danio rerio"]),
   ("fly", ["drosophila", "fruit fly"])]

/-- The `BasicFieldExtractor.TAXA_LEVEL_KEYWORDS`. -/
def TAXA_LEVEL_KEYWORDS : List String :=
  ["phylum", "class", "order", "family", "genus", "species"]

/-- The `BasicFieldExtractor.BODY_SITE_KEYWORDS` (dict in insertion order). -/
def BODY_SITE_KEYWORDS : List (String × List String) :=
  [("gut", ["gut", "intestinal", "stool", "fecal", "gastrointestinal", "colon"]),
   ("oral", ["oral", "mouth", "dental", "tongue", "saliva"]),
   ("skin", ["skin", "cutaneous", "epidermal"]),
   ("respiratory", ["lung", "respiratory", "nasal", "nose"]),
   ("vaginal", ["vaginal", "vagina"]),
   ("urinary", ["urine", "bladder", "urethral"])]

/-- The `BasicFieldExtractor.SEQUENCING_TYPE_KEYWORDS` (dict in insertion order). -/
def SEQUENCING_TYPE_KEYWORDS : List (String × List String) :=
  [("16s", ["16s", "16s rrna", "16s ribosomal"]),
   ("metagenomics", ["metagenomics", "metagenomic", "whole genome", "shotgun"]),
   ("its", ["its", "internal transcribed spacer"]),
   ("amplicon", ["amplicon", "pcr", "targeted"])]

/-- First category whose any keyword occurs in the text (the shared loop
shape of the host-species / body-site / sequencing-type extraction). -/
def firstCategory (cats : List (String × List String)) (t : List Char) : Option String :=
  match cats with
  | [] => none
  | (name, kws) :: rest =>
    if kws.any (fun k => containsSub k.data t) then some name else firstCategory rest t

/-- The `BasicFieldExtractor._extract_body_site`. -/
def extract_body_site (t : List Char) : Option String := firstCategory BODY_SITE_KEYWORDS t

/-- The `BasicFieldExtractor._extract_sequencing_type`. -/
def extract_sequencing_type (t : List Char) : Option String :=
  firstCategory SEQUENCING_TYPE_KEYWORDS t

/-- The seven `condition_patterns` of `BasicFieldExtractor._extract_condition`,
compiled to matchers (group 1 is the whole pattern body in each). -/
def condition_patterns : List Matcher :=
  [mCap (mAlt (mSeqs [lit "inflammatory", sp1, lit "bowel", sp1, lit "disease"]) (lit "ibd")),
   mCap (mSeqs [lit "crohn", mClass (fun c => c = '\'' || c = '"'), mOpt (lit "s") [], sp1,
                lit "disease"]),
   mCap (mSeqs [lit "ulcerative", sp1, lit "colitis"]),
   mCap (mAlt (mSeqs [lit "irritable", sp1, lit "bowel", sp1, lit "syndrome"]) (lit "ibs")),
   mCap (lit "diabetes"),
   mCap (mSeqs [lit "obes", mClass (fun c => c = 'e' || c = 'i'), lit "ty"]),
   mCap (mSeqs [lit "autoimmune", sp1, lit "disease"])]

/-- The `BasicFieldExtractor._extract_condition`: first pattern that matches wins,
returning `match.group(1)`. -/
def extract_condition_go (pats : List Matcher) (t : List Char) : Option (List Char) :=
  match pats with
  | [] => none
  | m :: ms =>
    match mSearch m t with
    | some caps => caps.head?.bind id
    | none => extract_condition_go ms t

/-- The `BasicFieldExtractor._extract_condition`. -/
def extract_condition (t : List Char) : Option (List Char) :=
  extract_condition_go condition_patterns t

/-- The `BasicFieldExtractor.SAMPLE_SIZE_REGEX`, compiled to matchers in source order. -/
def SAMPLE_SIZE_REGEX : List Matcher :=
  [mSeqs [lit "n", sp0, lit "=", sp0, mCap digits24],
   mSeqs [lit "sample", mOpt (lit "s") [], sp0,
          mOpt (mCap (mAlt (lit "size") (lit "count"))) [none], sp0,
          mOpt (mCap (mAlt (lit "of") (lit "="))) [none], sp0,
          mCap digits24],
   mSeqs [lit "participant", mOpt (lit "s") [], sp0, mCap digits24],
   mSeqs [mCap digits24, sp0,
          mCap (mAlt (mSeqs [lit "sample", mOpt (lit "s") []])
                     (mSeqs [lit "participant", mOpt (lit "s") []]))]]

/-- The sample-size loop of `BasicFieldExtractor.extract`: for each regex in
order run `re.search`; on a match keep the digit groups; if any, take the
last one and stop, otherwise try the next regex. -/
def sample_size_go (pats : List Matcher) (t : List Char) : Option (List Char) :=
  match pats with
  | [] => none
  | m :: ms =>
    match mSearch m t with
    | none => sample_size_go ms t
    | some caps =>
      let nums := (caps.filterMap id).filter pyIsDigit
      match nums.getLast? with
      | some v => some v
      | none => sample_size_go ms t

/-- Sample-size detection over the lower-cased text. -/
def sample_size_value (t : List Char) : Option (List Char) :=
  sample_size_go SAMPLE_SIZE_REGEX t

/-- The `BasicFieldExtractor._mk_field`. -/
def mk_field : Option String → FieldResult
  | none => ⟨"ABSENT", none, 0.0, some "Not detected by heuristic fallback", none⟩
  | some v => ⟨"PRESENT", some v, 0.6, none, none⟩

/-- The `BasicFieldExtractor.extract`: the six fields in insertion order. -/
def extract (text : String) : List (String × FieldResult) :=
  let t := pyLower text.data
  [("host_species", mk_field (firstCategory HOST_SPECIES_KEYWORDS t)),
   ("body_site", mk_field (extract_body_site t)),
   ("condition", mk_field ((extract_condition t).map List.asString)),
   ("sequencing_type", mk_field (extract_sequencing_type t)),
   ("taxa_level", mk_field (TAXA_LEVEL_KEYWORDS.find? (fun k => containsSub k.data t))),
   ("sample_size", mk_field ((sample_size_value t).map List.asString))]

/-! ## Python JSON values

Python objects produced by `json.loads`: `None`, booleans, numbers
(modelled exactly as rationals), strings, lists and dicts (association
lists; `json.loads` yields unique keys). -/

/-- A decoded JSON / Python value. -/
inductive Json where
  | null
  | bool (b : Bool)
  | num (q : ℚ)
  | str (s : String)
  | arr (xs : List Json)
  | obj (kvs : List (String × Json))
deriving Repr

mutual

/-- Decidable equality on JSON values. -/
def Json.decEq : (a b : Json) → Decidable (a = b)
  | .null, .null => isTrue rfl
  | .bool a, .bool b =>
    match Bool.decEq a b with
    | isTrue h => isTrue (h ▸ rfl)
    | isFalse h => isFalse fun e => h (Json.bool.inj e)
  | .num a, .num b =>
    match inferInstanceAs (Decidable (a = b)) with
    | isTrue h => isTrue (h ▸ rfl)
    | isFalse h => isFalse fun e => h (Json.num.inj e)
  | .str a, .str b =>
    match String.decEq a b with
    | isTrue h => isTrue (h ▸ rfl)
    | isFalse h => isFalse fun e => h (Json.str.inj e)
  | .arr xs, .arr ys =>
    match Json.decEqArr xs ys with
    | isTrue h => isTrue (h ▸ rfl)
    | isFalse h => isFalse fun e => h (Json.arr.inj e)
  | .obj xs, .obj ys =>
    match Json.decEqObj xs ys with
    | isTrue h => isTrue (h ▸ rfl)
    | isFalse h => isFalse fun e => h (Json.obj.inj e)
  | .null, .bool _ => isFalse nofun
  | .null, .num _ => isFalse nofun
  | .null, .str _ => isFalse nofun
  | .null, .arr _ => isFalse nofun
  | .null, .obj _ => isFalse nofun
  | .bool _, .null => isFalse nofun
  | .bool _, .num _ => isFalse nofun
  | .bool _, .str _ => isFalse nofun
  | .bool _, .arr _ => isFalse nofun
  | .bool _, .obj _ => isFalse nofun
  | .num _, .null => isFalse nofun
  | .num _, .bool _ => isFalse nofun
  | .num _, .str _ => isFalse nofun
  | .num _, .arr _ => isFalse nofun
  | .num _, .obj _ => isFalse nofun
  | .str _, .null => isFalse nofun
  | .str _, .bool _ => isFalse nofun
  | .str _, .num _ => isFalse nofun
  | .str _, .arr _ => isFalse nofun
  | .str _, .obj _ => isFalse nofun
  | .arr _, .null => isFalse nofun
  | .arr _, .bool _ => isFalse nofun
  | .arr _, .num _ => isFalse nofun
  | .arr _, .str _ => isFalse nofun
  | .arr _, .obj _ => isFalse nofun
  | .obj _, .null => isFalse nofun
  | .obj _, .bool _ => isFalse nofun
  | .obj _, .num _ => isFalse nofun
  | .obj _, .str _ => isFalse nofun
  | .obj _, .arr _ => isFalse nofun

/-- Decidable equality on JSON arrays. -/
def Json.decEqArr : (a b : List Json) → Decidable (a = b)
  | [], [] => isTrue rfl
  | [], _ :: _ => isFalse nofun
  | _ :: _, [] => isFalse nofun
  | x :: xs, y :: ys =>
    match Json.decEq x y, Json.decEqArr xs ys with
    | isTrue h1, isTrue h2 => isTrue (h1 ▸ h2 ▸ rfl)
    | isFalse h1, _ => isFalse fun e => h1 (List.head_eq_of_cons_eq e)
    | _, isFalse h2 => isFalse fun e => h2 (List.tail_eq_of_cons_eq e)

/-- Decidable equality on JSON object member lists. -/
def Json.decEqObj : (a b : List (String × Json)) → Decidable (a = b)
  | [], [] => isTrue rfl
  | [], _ :: _ => isFalse nofun
  | _ :: _, [] => isFalse nofun
  | (k, x) :: xs, (k', y) :: ys =>
    match String.decEq k k', Json.decEq x y, Json.decEqObj xs ys with
    | isTrue hk, isTrue h1, isTrue h2 => isTrue (hk ▸ h1 ▸ h2 ▸ rfl)
    | isFalse hk, _, _ =>
      isFalse fun e => hk (congrArg Prod.fst (List.head_eq_of_cons_eq e))
    | _, isFalse h1, _ =>
      isFalse fun e => h1 (congrArg Prod.snd (List.head_eq_of_cons_eq e))
    | _, _, isFalse h2 => isFalse fun e => h2 (List.tail_eq_of_cons_eq e)

end

instance : DecidableEq Json := Json.decEq

/-- Python dict lookup `d.get(k)` on an association list (first hit). -/
def getKey (kvs : List (String × Json)) (k : String) : Option Json :=
  match kvs with
  | [] => none
  | (k', v) :: rest => if k' = k then some v else getKey rest k

/-- Python dict assignment `d[k] = v`: update in place if the key exists,
otherwise append at the end (dict insertion order). -/
def setKey (kvs : List (String × Json)) (k : String) (v : Json) : List (String × Json) :=
  match kvs with
  | [] => [(k, v)]
  | (k', v') :: rest => if k' = k then (k, v) :: rest else (k', v') :: setKey rest k v

/-- Python truthiness of a decoded JSON value (`bool(x)`). -/
def Json.truthy : Json → Bool
  | .null => false
  | .bool b => b
  | .num q => q ≠ 0
  | .str s => !s.data.isEmpty
  | .arr xs => !xs.isEmpty
  | .obj kvs => !kvs.isEmpty

/-! ### `json.loads`

A recursive-descent parser for the JSON grammar, modelling CPython's
`json.loads` (strict mode, no trailing data).  Parsing failure (the
`json.JSONDecodeError` cases) is `none`. -/

/-- JSON structural whitespace. -/
def isJsonWs (c : Char) : Bool := c = ' ' || c = '\t' || c = '\n' || c = '\r'

/-- Skip JSON whitespace. -/
def skipWs (s : List Char) : List Char := s.dropWhile isJsonWs

/-- Hex digit value (numeric comparison on the code point). -/
def hexVal (c : Char) : Option Nat :=
  let d := c.toNat
  if 48 ≤ d ∧ d ≤ 57 then some (d - 48)
  else if 97 ≤ d ∧ d ≤ 102 then some (d - 87)
  else if 65 ≤ d ∧ d ≤ 70 then some (d - 55)
  else none

/-- Table of single-character JSON string escapes. -/
def jsonEscapeTable : List (Char × Char) :=
  [('"', '"'), ('\\', '\\'), ('/', '/'), ('b', '\x08'), ('f', '\x0c'),
   ('n', '\n'), ('r', '\r'), ('t', '\t')]

/-- Parse the body of a JSON string literal after the opening quote. -/
def parseJsonString : List Char → Option (List Char × List Char)
  | [] => none
  | c :: rest =>
    if c = '"' then some ([], rest)
    else if c = '\\' then
      match rest with
      | 'u' :: h1 :: h2 :: h3 :: h4 :: rest2 =>
        (match hexVal h1, hexVal h2, hexVal h3, hexVal h4 with
         | some a, some b, some c2, some d =>
           let n := ((a * 16 + b) * 16 + c2) * 16 + d
           if h : n.isValidChar then
             (parseJsonString rest2).map fun pr => (Char.ofNatAux n h :: pr.1, pr.2)
           else none
         | _, _, _, _ => none)
      | e :: rest1 =>
        (match jsonEscapeTable.find? fun p => p.1 = e with
         | some p => (parseJsonString rest1).map fun pr => (p.2 :: pr.1, pr.2)
         | none => none)
      | [] => none
    else if c.toNat < 32 then none
    else (parseJsonString rest).map fun pr => (c :: pr.1, pr.2)

/-- Digits to a natural number. -/
def digitsToNat (ds : List Char) : Nat :=
  ds.foldl (fun acc c => acc * 10 + (c.toNat - '0'.toNat)) 0

/-- Parse a JSON number (integer, fraction, exponent) into an exact rational. -/
def parseJsonNumber (s : List Char) : Option (ℚ × List Char) :=
  let (neg, s1) := match s with
    | '-' :: rest => (true, rest)
    | _ => (false, s)
  let intDigits := s1.takeWhile isAsciiDigit
  let s2 := s1.drop intDigits.length
  if intDigits.isEmpty then none
  else if intDigits.length > 1 && intDigits.headD '0' = '0' then none
  else
    let (fracDigits, s3) := match s2 with
      | '.' :: rest =>
        let fd := rest.takeWhile isAsciiDigit
        (fd, rest.drop fd.length)
      | _ => ([], s2)
    if s2 ≠ s3 ∧ fracDigits.isEmpty then none
    else
      let (expOk, expNeg, expDigits, s4) := match s3 with
        | 'e' :: rest | 'E' :: rest =>
          let (en, rest') := match rest with
            | '+' :: r => (false, r)
            | '-' :: r => (true, r)
            | _ => (false, rest)
          let ed := rest'.takeWhile isAsciiDigit
          (!ed.isEmpty, en, ed, rest'.drop ed.length)
        | _ => (true, false, [], s3)
      if !expOk then none
      else
        let mantissa : ℚ :=
          (digitsToNat intDigits : ℚ) +
            (digitsToNat fracDigits : ℚ) / ((10 : ℚ) ^ fracDigits.length)
        let scaled : ℚ :=
          if expNeg then mantissa / ((10 : ℚ) ^ digitsToNat expDigits)
          else mantissa * ((10 : ℚ) ^ digitsToNat expDigits)
        some (if neg then -scaled else scaled, s4)

mutual

/-- Parse one JSON value (fuelled recursive descent).  Object members are
collected in document order, then inserted left to right with `setKey`,
reproducing CPython's duplicate-key handling (first position, last value). -/
def parseJsonValue (fuel : Nat) (s : List Char) : Option (Json × List Char) :=
  match fuel with
  | 0 => none
  | fuel + 1 =>
    let t := skipWs s
    if "null".data.isPrefixOf t then some (.null, t.drop 4)
    else if "true".data.isPrefixOf t then some (.bool true, t.drop 4)
    else if "false".data.isPrefixOf t then some (.bool false, t.drop 5)
    else
    match t with
    | '"' :: rest => (parseJsonString rest).map fun (cs, r) => (.str cs.asString, r)
    | '[' :: rest =>
      (match skipWs rest with
       | ']' :: rest' => some (.arr [], rest')
       | _ => (parseJsonElems fuel rest).map fun (xs, r) => (.arr xs, r))
    | '{' :: rest =>
      (match skipWs rest with
       | '}' :: rest' => some (.obj [], rest')
       | _ =>
         (parseJsonMembers fuel rest).map fun (pairs, r) =>
           (.obj (pairs.foldl (fun d kv => setKey d kv.1 kv.2) []), r))
    | s' => (parseJsonNumber s').map fun (q, r) => (.num q, r)

/-- Parse the comma-separated elements of a non-empty JSON array. -/
def parseJsonElems (fuel : Nat) (s : List Char) : Option (List Json × List Char) :=
  match fuel with
  | 0 => none
  | fuel + 1 =>
    match parseJsonValue fuel s with
    | none => none
    | some (v, rest) =>
      match skipWs rest with
      | ',' :: rest' =>
        (parseJsonElems fuel rest').map fun (xs, r) => (v :: xs, r)
      | ']' :: rest' => some ([v], rest')
      | _ => none

/-- Parse the comma-separated members of a non-empty JSON object, in
document order. -/
def parseJsonMembers (fuel : Nat) (s : List Char) : Option (List (String × Json) × List Char) :=
  match fuel with
  | 0 => none
  | fuel + 1 =>
    match skipWs s with
    | '"' :: rest =>
      match parseJsonString rest with
      | none => none
      | some (k, rest1) =>
        match skipWs rest1 with
        | ':' :: rest2 =>
          match parseJsonValue fuel rest2 with
          | none => none
          | some (v, rest3) =>
            match skipWs rest3 with
            | ',' :: rest4 =>
              (parseJsonMembers fuel rest4).map fun (kvs, r) => ((k.asString, v) :: kvs, r)
            | '}' :: rest4 => some ([(k.asString, v)], rest4)
            | _ => none
        | _ => none
    | _ => none

end

/-- The `json.loads`: parse a complete document, rejecting trailing data. -/
def json_loads (s : List Char) : Option Json :=
  match parseJsonValue (s.length + 1) s with
  | some (v, rest) => if (skipWs rest).isEmpty then some v else none
  | none => none

/-- Python `float(x)` on a decoded JSON value: numbers and booleans convert,
numeric strings are parsed, everything else raises (`none`). -/
def pyFloat : Json → Option ℚ
  | .num q => some q
  | .bool b => some (if b then 1 else 0)
  | .str s =>
    let t := pyStrip s.data
    let t' := match t with
      | '+' :: rest => rest
      | _ => t
    (match parseJsonNumber t' with
     | some (q, []) => some q
     | _ => none)
  | _ => none

/-! ## Per-field LLM extraction
(`app/services/bugsigdb_analyzer.py`) -/

/-- The outcome of `await asyncio.wait_for(unified_qa.chat(prompt), ...)`:
a timeout, some other exception, or a response dict giving
`response.get('text', '')` and `response.get('confidence', 0.0)`. -/
inductive ChatOutcome where
  | timeout
  | exn (msg : String)
  | ok (text : String) (confidence : ℚ)
deriving Repr, DecidableEq

/-- The per-field result dict of `analyze_single_field` /
`create_empty_field_result`: value / status / confidence /
reason_if_missing.  `value` is `none` for Python `None`; `status` and
`reason_if_missing` are whatever JSON values the branches put there. -/
structure PyFieldResult where
  value : Option Json
  status : Json
  confidence : ℚ
  reason_if_missing : Json
deriving Repr, DecidableEq

/-- The `create_empty_field_result` (the `field_name` argument is unused). -/
def create_empty_field_result (_field_name : String) : PyFieldResult :=
  ⟨none, .str "ABSENT", 0.0, .str "Analysis failed or timed out"⟩

/-- The `field_data.get(k)` where JSON `null` and a missing key both become
Python `None`. -/
def getNonNull (kvs : List (String × Json)) (k : String) : Option Json :=
  match getKey kvs k with
  | some .null => none
  | some v => some v
  | none => none

/-- The `json.loads` attempt of `analyze_single_field`: take the substring
from the first `\x7b` to the last `\x7d` of the answer and decode it.  The
slice starts at a brace, so a successful decode is always an object. -/
def extract_field_json (answer : String) : Option (List (String × Json)) :=
  let a := answer.data
  let json_start := pyFind a '{'
  let json_end := pyRfind a '}' + 1
  if json_start ≠ -1 ∧ json_end > json_start then
    match json_loads (pySlice a json_start.toNat json_end.toNat) with
    | some (.obj kvs) => some kvs
    | _ => none
  else none

/-- The strings of `['not found', 'not available', 'none', 'n/a']`. -/
def NOT_FOUND_ANSWERS : List String := ["not found", "not available", "none", "n/a"]

/-- The `analyze_single_field`: the prompt only feeds the model call, so the
function is determined by the field name and the call's outcome.  A
timeout, any other exception (including a non-numeric `confidence` making
`float(...)` raise) and the low-confidence guard all yield the empty field
result; a decoded JSON object is passed through unchanged; otherwise the
free-text fallback classifies by confidence. -/
def analyze_single_field (field_name : String) (outcome : ChatOutcome) : PyFieldResult :=
  match outcome with
  | .timeout => create_empty_field_result field_name
  | .exn _ => create_empty_field_result field_name
  | .ok answer confidence =>
    match extract_field_json answer with
    | some field_data =>
      (match pyFloat ((getKey field_data "confidence").getD (.num confidence)) with
       | some c =>
         ⟨getNonNull field_data "value",
          (getKey field_data "status").getD (.str "ABSENT"), c,
          (getKey field_data "reason_if_missing").getD (.str "")⟩
       | none => create_empty_field_result field_name)
    | none =>
      if answer = "" ∨ confidence < 0.3 then create_empty_field_result field_name
      else
        let lowered := (pyLower answer.data).asString
        let status : String :=
          if confidence ≥ 0.8 ∧ ¬ NOT_FOUND_ANSWERS.contains lowered then "PRESENT"
          else if confidence ≥ 0.4 then "PARTIALLY_PRESENT"
          else "ABSENT"
        ⟨if status ≠ "ABSENT" then some (.str answer) else none,
         .str status, confidence,
         .str (if status ≠ "ABSENT" then "" else "Information not found in the paper")⟩

/-- The `ESSENTIAL_FIELDS`: the six fields and their questions, in dict order. -/
def ESSENTIAL_FIELDS : List (String × String) :=
  [("host_species", "What host species is being studied in this research?"),
   ("body_site", "What body site or anatomical location was sampled for microbiome analysis?"),
   ("condition", "What disease, treatment, or condition is being studied?"),
   ("sequencing_type", "What sequencing method or molecular technique was used?"),
   ("taxa_level", "What taxonomic level was analyzed (phylum, genus, species, etc.)?"),
   ("sample_size", "How many samples or participants were included in the study?")]

/-- The texts dict returned by `get_texts_for_analysis_async` (missing keys
modelled as empty defaults, as the `.get(..., '')` calls assume). -/
structure PaperTexts where
  title : String
  abstract : String
  full_text : String
  authors : List String
  journal : String
  publication_date : String
deriving Repr, DecidableEq

/-- The result dict of `analyze_paper_simple`. -/
structure AnalysisResult where
  pmid : String
  title : String
  authors : List String
  journal : String
  publication_date : String
  fields : List (String × PyFieldResult)
  analysis_timestamp : String
  model_used : String
deriving Repr, DecidableEq

/-- The `analyze_paper_simple`: environment inputs (retrieved texts, the chat
outcome for each field's model call, the wall-clock timestamp and the
configured model name) are passed as arguments.  Returns `none` exactly
where the Python returns `None`. -/
def analyze_paper_simple (pmid : String) (texts : PaperTexts)
    (outcomes : String → ChatOutcome) (timestamp model_used : String) :
    Option AnalysisResult :=
  if texts.title = "" ∧ texts.abstract = "" then none
  else
    let analysis_text :=
      if texts.full_text ≠ "" ∧ texts.abstract.data.length < 1000 then
        texts.abstract ++ "\n\n" ++ (texts.full_text.data.take 2000).asString
      else texts.abstract
    if (pyStrip analysis_text.data).isEmpty then none
    else
      let field_results :=
        ESSENTIAL_FIELDS.map fun fq => (fq.1, analyze_single_field fq.1 (outcomes fq.1))
      some ⟨pmid, texts.title, texts.authors, texts.journal, texts.publication_date,
            field_results, timestamp, model_used⟩

/-! ## Combined-mode extractor
(`app/models/gemini_qa.py`, class `GeminiQA`) -/

/-- The `GeminiQA._validate_and_normalize_json`'s `required_fields` table:
each field's default ABSENT structure, in dict order. -/
def required_fields : List (String × List (String × Json)) :=
  [("host_species",
    [("primary", .str "Unknown"), ("confidence", .num 0.0), ("status", .str "ABSENT"),
     ("reason_if_missing", .str "Field not found in analysis"),
     ("suggestions_for_curation", .str "Review paper for host species information")]),
   ("body_site",
    [("site", .str "Unknown"), ("confidence", .num 0.0), ("status", .str "ABSENT"),
     ("reason_if_missing", .str "Field not found in analysis"),
     ("suggestions_for_curation", .str "Review paper for body site information")]),
   ("condition",
    [("description", .str "Unknown"), ("confidence", .num 0.0), ("status", .str "ABSENT"),
     ("reason_if_missing", .str "Field not found in analysis"),
     ("suggestions_for_curation", .str "Review paper for condition information")]),
   ("sequencing_type",
    [("method", .str "Unknown"), ("confidence", .num 0.0), ("status", .str "ABSENT"),
     ("reason_if_missing", .str "Field not found in analysis"),
     ("suggestions_for_curation", .str "Review paper for sequencing method information")]),
   ("taxa_level",
    [("level", .str "Unknown"), ("confidence", .num 0.0), ("status", .str "ABSENT"),
     ("reason_if_missing", .str "Field not found in analysis"),
     ("suggestions_for_curation", .str "Review paper for taxonomic level information")]),
   ("sample_size",
    [("size", .str "Unknown"), ("confidence", .num 0.0), ("status", .str "ABSENT"),
     ("reason_if_missing", .str "Field not found in analysis"),
     ("suggestions_for_curation", .str "Review paper for sample size information")])]

/-- The six field keys in canonical order (`required_fields.keys()`). -/
def FIELD_KEYS : List String := required_fields.map Prod.fst

/-- The per-field body of the normalization loop: a missing or non-dict
field becomes the default structure; a dict field gets each missing
sub-key default-filled (in the default structure's order). -/
def normalize_field (d : List (String × Json)) (field : String)
    (dflt : List (String × Json)) : List (String × Json) :=
  match getKey d field with
  | some (.obj fd) =>
    setKey d field
      (.obj (dflt.foldl
        (fun fd' kv => if (getKey fd' kv.1).isSome then fd' else setKey fd' kv.1 kv.2) fd))
  | some _ => setKey d field (.obj dflt)
  | none => setKey d field (.obj dflt)

/-- The `parsed_json.get(field, {}).get("status")` after normalization.  (On a
non-dict field Python would raise, but normalization has just made every
required field a dict, so that case cannot fire; it is mapped to `none`.) -/
def field_status (d : List (String × Json)) (f : String) : Option Json :=
  match getKey d f with
  | some (.obj fd) => getKey fd "status"
  | _ => none

/-- The `GeminiQA._generate_curation_summary`. -/
def generate_curation_summary (missing_fields : List String) : String :=
  if missing_fields.isEmpty then
    "All required fields are present. Paper is ready for curation."
  else if missing_fields.length = 1 then
    "Missing 1 field: " ++ missing_fields.headD "" ++ ". Review paper for this information."
  else if missing_fields.length ≤ 3 then
    "Missing " ++ toString missing_fields.length ++ " fields: " ++
      String.intercalate ", " missing_fields ++ ". Paper needs additional review."
  else
    "Missing " ++ toString missing_fields.length ++ " fields: " ++
      String.intercalate ", " missing_fields ++
      ". Paper requires significant review before curation."

/-- The `GeminiQA._validate_and_normalize_json`. -/
def validate_and_normalize_json (parsed_json : List (String × Json)) :
    List (String × Json) :=
  let d := required_fields.foldl (fun d fd => normalize_field d fd.1 fd.2) parsed_json
  let missing_fields :=
    FIELD_KEYS.filter fun f => decide (field_status d f ≠ some (.str "PRESENT"))
  let d := setKey d "missing_fields" (.arr (missing_fields.map .str))
  setKey d "curation_preparation_summary" (.str (generate_curation_summary missing_fields))

/-- The `GeminiQA._create_fallback_json`. -/
def create_fallback_json : List (String × Json) :=
  [("host_species",
    .obj [("primary", .str "Unknown"), ("confidence", .num 0.0), ("status", .str "ABSENT"),
          ("reason_if_missing", .str "Analysis failed - re-run required"),
          ("suggestions_for_curation", .str "Re-run analysis with corrected prompt")]),
   ("body_site",
    .obj [("site", .str "Unknown"), ("confidence", .num 0.0), ("status", .str "ABSENT"),
          ("reason_if_missing", .str "Analysis failed - re-run required"),
          ("suggestions_for_curation", .str "Re-run analysis with corrected prompt")]),
   ("condition",
    .obj [("description", .str "Unknown"), ("confidence", .num 0.0), ("status", .str "ABSENT"),
          ("reason_if_missing", .str "Analysis failed - re-run required"),
          ("suggestions_for_curation", .str "Re-run analysis with corrected prompt")]),
   ("sequencing_type",
    .obj [("method", .str "Unknown"), ("confidence", .num 0.0), ("status", .str "ABSENT"),
          ("reason_if_missing", .str "Analysis failed - re-run required"),
          ("suggestions_for_curation", .str "Re-run analysis with corrected prompt")]),
   ("taxa_level",
    .obj [("level", .str "Unknown"), ("confidence", .num 0.0), ("status", .str "ABSENT"),
          ("reason_if_missing", .str "Analysis failed - re-run required"),
          ("suggestions_for_curation", .str "Re-run analysis with corrected prompt")]),
   ("sample_size",
    .obj [("size", .str "Unknown"), ("confidence", .num 0.0), ("status", .str "ABSENT"),
          ("reason_if_missing", .str "Analysis failed - re-run required"),
          ("suggestions_for_curation", .str "Re-run analysis with corrected prompt")]),
   ("missing_fields",
    .arr [.str "host_species", .str "body_site", .str "condition", .str "sequencing_type",
          .str "taxa_level", .str "sample_size"]),
   ("curation_preparation_summary", .str "Analysis failed - re-run required")]

/-- The `GeminiQA._get_content_key_for_field`. -/
def get_content_key_for_field (field_name : String) : String :=
  match field_name with
  | "host_species" => "primary"
  | "body_site" => "site"
  | "condition" => "description"
  | "sequencing_type" => "method"
  | "taxa_level" => "level"
  | "sample_size" => "size"
  | _ => "value"

/-- A JSON value usable as a Python number (floats; booleans coerce). -/
def jsonAsNum : Json → Option ℚ
  | .num q => some q
  | .bool b => some (if b then 1 else 0)
  | _ => none

/-- One iteration of the `confidence_scores` loop of
`_calculate_enhanced_confidence` for a dict-valued field: the value
appended to the score list, or `none` when that Python iteration raises
(`.lower()` on a truthy non-string content value, or `field_confidence +
0.1` on a non-numeric confidence). -/
def confidence_score_item (field_name : String) (field_data : List (String × Json)) :
    Option Json :=
  let status := (getKey field_data "status").getD (.str "ABSENT")
  let field_confidence := (getKey field_data "confidence").getD (.num 0.0)
  if status = .str "PRESENT" then
    let content_key := get_content_key_for_field field_name
    let content_value := (getKey field_data content_key).getD (.str "")
    if content_value.truthy then
      match content_value with
      | .str s =>
        if ["unknown", "not specified", ""].contains (pyLower s.data).asString then
          some field_confidence
        else
          match jsonAsNum field_confidence with
          | some q => some (.num (min 1.0 (q + 0.1)))
          | none => none
      | _ => none
    else some field_confidence
  else if status = .str "PARTIALLY_PRESENT" then some field_confidence
  else some (.num 0.0)

/-- The `confidence_scores` list built by `_calculate_enhanced_confidence`
(skipping the two meta keys and non-dict values); `none` when an iteration
raises. -/
def collect_confidence_scores : List (String × Json) → Option (List Json)
  | [] => some []
  | (k, v) :: rest =>
    if k = "missing_fields" ∨ k = "curation_preparation_summary" then
      collect_confidence_scores rest
    else
      match v with
      | .obj fd =>
        (match confidence_score_item k fd, collect_confidence_scores rest with
         | some s, some ss => some (s :: ss)
         | _, _ => none)
      | _ => collect_confidence_scores rest

/-- All scores as numbers; `none` when `score >= 0.8` would raise. -/
def scores_as_nums (scores : List Json) : Option (List ℚ) :=
  scores.mapM jsonAsNum

/-- The `GeminiQA._calculate_enhanced_confidence`: any exception inside the
`try` yields 0.5; an empty score list yields 0.0; otherwise each score
`≥ 0.8` is weighted by `× 1.2` (uncapped) and the mean of the weighted
scores is capped at 1.0. -/
def calculate_enhanced_confidence (validated_json : List (String × Json)) : ℚ :=
  match collect_confidence_scores validated_json with
  | none => 0.5
  | some scores =>
    if scores.isEmpty then 0.0
    else
      match scores_as_nums scores with
      | none => 0.5
      | some qs =>
        let weighted_scores := qs.map fun score => if score ≥ 0.8 then score * 1.2 else score
        min 1.0 (weighted_scores.sum / (weighted_scores.length : ℚ))

/-! ### `json.dumps(..., indent=2)` -/

/-- The `indent=2` indentation prefix. -/
def jsonIndent (level : Nat) : String := (List.replicate (2 * level) ' ').asString

/-- Escape one character of a JSON string (`ensure_ascii` default). -/
def dumpChar (c : Char) : String :=
  if c = '"' then "\\\""
  else if c = '\\' then "\\\\"
  else if c = '\n' then "\\n"
  else if c = '\r' then "\\r"
  else if c = '\t' then "\\t"
  else if c.toNat < 32 ∨ c.toNat > 126 then
    let hex := Nat.toDigits 16 c.toNat
    "\\u" ++ (List.replicate (4 - hex.length) '0').asString ++ hex.asString
  else String.singleton c

/-- Serialise a JSON string literal. -/
def dumpStr (s : String) : String :=
  "\"" ++ String.join (s.data.map dumpChar) ++ "\""

/-- Decimal digits of the fractional part of a rational in `[0,1)`. -/
def fracDigits (fuel : Nat) (num den : Nat) : List Char :=
  match fuel with
  | 0 => []
  | fuel + 1 =>
    if num = 0 then []
    else
      let d := num * 10 / den
      Char.ofNat ('0'.toNat + d) :: fracDigits fuel (num * 10 % den) den

/-- Serialise a JSON number: integers plainly, other rationals by decimal
expansion (all numbers the pipeline prints have terminating decimals). -/
def dumpNum (q : ℚ) : String :=
  if q.den = 1 then toString q.num
  else
    let sign := if q < 0 then "-" else ""
    let n := |q|
    let ipart := n.num.toNat / n.den
    let fnum := n.num.toNat % n.den
    sign ++ toString ipart ++ "." ++ (fracDigits 64 fnum n.den).asString

mutual

/-- The `json.dumps(v, indent=2)` (CPython layout). -/
def dumpJson (level : Nat) : Json → String
  | .null => "null"
  | .bool true => "true"
  | .bool false => "false"
  | .num q => dumpNum q
  | .str s => dumpStr s
  | .arr [] => "[]"
  | .arr (x :: xs) =>
    "[\n" ++ jsonIndent (level + 1) ++ dumpJson (level + 1) x ++
      dumpArrTail (level + 1) xs ++ "\n" ++ jsonIndent level ++ "]"
  | .obj [] => "\x7b\x7d"
  | .obj ((k, v) :: kvs) =>
    "\x7b\n" ++ jsonIndent (level + 1) ++ dumpStr k ++ ": " ++ dumpJson (level + 1) v ++
      dumpObjTail (level + 1) kvs ++ "\n" ++ jsonIndent level ++ "\x7d"

/-- Remaining array elements. -/
def dumpArrTail (level : Nat) : List Json → String
  | [] => ""
  | x :: xs => ",\n" ++ jsonIndent level ++ dumpJson level x ++ dumpArrTail level xs

/-- Remaining object members. -/
def dumpObjTail (level : Nat) : List (String × Json) → String
  | [] => ""
  | (k, v) :: kvs =>
    ",\n" ++ jsonIndent level ++ dumpStr k ++ ": " ++ dumpJson level v ++ dumpObjTail level kvs

end

/-- The `json.dumps(v, indent=2)` at top level. -/
def json_dumps_indent2 (v : Json) : String := dumpJson 0 v

/-! ### `analyze_paper_enhanced` -/

/-- The outcome of the combined-mode model call: a timeout, another
exception (with its message and Python type name), or a response whose
text is given (empty when `response`/`response.text` is falsy). -/
inductive LLMOutcome where
  | timeout
  | exn (msg typeName : String)
  | ok (text : String)
deriving Repr, DecidableEq

/-- The dict returned by `analyze_paper_enhanced` (the diagnostic
`debug_info` sub-dict of wall-clock timestamps is not modelled). -/
structure EnhancedResult where
  error : Option String
  error_type : Option String
  key_findings : String
  confidence : ℚ
  status : Option String
deriving Repr, DecidableEq

/-- The `elif` chain classifying a generic exception's message. -/
def classify_error (msg : String) : String :=
  let m := pyLower msg.data
  if containsSub "quota".data m || containsSub "quota exceeded".data m then
    "Model API quota exceeded. Please check your API usage limits."
  else if containsSub "permission".data m || containsSub "access".data m then
    "Model API access denied. Check API key permissions and IP restrictions."
  else if containsSub "authentication".data m || containsSub "invalid".data m then
    "Model API authentication failed. Check your API key."
  else if containsSub "network".data m || containsSub "connection".data m then
    "Network connectivity issue. Check your internet connection."
  else if containsSub "timeout".data m then
    "Model API request timed out. The service may be slow or unavailable."
  else "Unexpected error: " ++ msg

/-- The tolerant span selection of `analyze_paper_enhanced`: the substring
from the first `\x7b` to the last `\x7d` when that is non-empty, else the
whole text. -/
def extract_json_span (response_text : List Char) : List Char :=
  let json_start := pyFind response_text '{'
  let json_end := pyRfind response_text '}' + 1
  if json_start ≥ 0 ∧ json_end > json_start then
    pySlice response_text json_start.toNat json_end.toNat
  else response_text

/-- The `GeminiQA.analyze_paper_enhanced`.  A valid non-object JSON document
(possible only when the response has no brace pair) makes
`_validate_and_normalize_json` raise a `TypeError` caught by the generic
handler; its Python error message is abbreviated to the type name here. -/
def analyze_paper_enhanced (api_key_present : Bool) (outcome : LLMOutcome) :
    EnhancedResult :=
  if ¬ api_key_present then
    ⟨some "No Gemini API key available. Please set the GEMINI_API_KEY environment variable.",
     some "MissingAPIKey", "\x7b\x7d", 0.0, some "error"⟩
  else
    match outcome with
    | .timeout => ⟨some "Request timed out", some "Timeout", "\x7b\x7d", 0.0, some "error"⟩
    | .exn msg ty => ⟨some (classify_error msg), some ty, "\x7b\x7d", 0.0, some "error"⟩
    | .ok text =>
      if text = "" then ⟨some "No response generated", none, "\x7b\x7d", 0.0, none⟩
      else
        let response_text := pyStrip text.data
        let json_text := extract_json_span response_text
        match json_loads json_text with
        | some (.obj kvs) =>
          let validated_json := validate_and_normalize_json kvs
          ⟨none, none, json_dumps_indent2 (.obj validated_json),
           calculate_enhanced_confidence validated_json, some "success"⟩
        | some _ =>
          ⟨some ("Unexpected error: TypeError"), some "TypeError", "\x7b\x7d", 0.0, some "error"⟩
        | none =>
          ⟨some "JSON parsing failed", none, json_dumps_indent2 (.obj create_fallback_json),
           0.0, some "fallback"⟩

/-! ## Result cache
(`app/services/cache_manager.py`, class `CacheManager`)

The three SQLite tables are keyed by `pmid TEXT PRIMARY KEY`; `INSERT OR
REPLACE` is an upsert, so each table is a map from pmid to its row.  The
`TEXT` payload columns hold `json.dumps(..., ensure_ascii=False)` output
(full text is stored raw). -/

/-- Escape one character for `json.dumps(..., ensure_ascii=False)`. -/
def dumpCharNA (c : Char) : String :=
  if c = '"' then "\\\""
  else if c = '\\' then "\\\\"
  else if c = '\n' then "\\n"
  else if c = '\r' then "\\r"
  else if c = '\t' then "\\t"
  else if c.toNat < 32 then
    let hex := Nat.toDigits 16 c.toNat
    "\\u" ++ (List.replicate (4 - hex.length) '0').asString ++ hex.asString
  else String.singleton c

/-- Serialise a string for compact non-ASCII-preserving dumps. -/
def dumpStrNA (s : String) : String :=
  "\"" ++ String.join (s.data.map dumpCharNA) ++ "\""

mutual

/-- The `json.dumps(v, ensure_ascii=False)` (compact default separators). -/
def dumpJsonC : Json → String
  | .null => "null"
  | .bool true => "true"
  | .bool false => "false"
  | .num q => dumpNum q
  | .str s => dumpStrNA s
  | .arr [] => "[]"
  | .arr (x :: xs) => "[" ++ dumpJsonC x ++ dumpArrTailC xs ++ "]"
  | .obj [] => "\x7b\x7d"
  | .obj ((k, v) :: kvs) =>
    "\x7b" ++ dumpStrNA k ++ ": " ++ dumpJsonC v ++ dumpObjTailC kvs ++ "\x7d"

/-- Remaining array elements (compact). -/
def dumpArrTailC : List Json → String
  | [] => ""
  | x :: xs => ", " ++ dumpJsonC x ++ dumpArrTailC xs

/-- Remaining object members (compact). -/
def dumpObjTailC : List (String × Json) → String
  | [] => ""
  | (k, v) :: kvs => ", " ++ dumpStrNA k ++ ": " ++ dumpJsonC v ++ dumpObjTailC kvs

end

/-- The `json.dumps(v, ensure_ascii=False)`. -/
def json_dumps (v : Json) : String := dumpJsonC v

/-- A row of `analysis_cache`. -/
structure AnalysisRow where
  analysis_data : String
  metadata : String
  timestamp : String
  source : String
  confidence : ℚ
deriving Repr, DecidableEq

/-- A row of `metadata_cache`. -/
structure MetadataRow where
  metadata : String
  timestamp : String
  source : String
deriving Repr, DecidableEq

/-- A row of `fulltext_cache`. -/
structure FulltextRow where
  fulltext : String
  timestamp : String
  source : String
deriving Repr, DecidableEq

/-- The cache database: three tables keyed by pmid. -/
structure CacheDB where
  analysis_cache : String → Option AnalysisRow
  metadata_cache : String → Option MetadataRow
  fulltext_cache : String → Option FulltextRow

/-- The `CacheManager.store_analysis_result` (the success path; `datetime.now()
.isoformat()` is the `now` argument).  Returns the Python result and the
new database state. -/
def store_analysis_result (db : CacheDB) (pmid : String) (analysis_data metadata : Json)
    (source : String) (confidence : ℚ) (now : String) : Bool × CacheDB :=
  (true,
   { db with
     analysis_cache := fun k =>
       if k = pmid then
         some ⟨json_dumps analysis_data, json_dumps metadata, now, source, confidence⟩
       else db.analysis_cache k })

/-- The dict returned by `CacheManager.get_analysis_result`. -/
structure AnalysisGet where
  analysis_data : Json
  metadata : Json
  timestamp : String
  source : String
  confidence : ℚ
  cached : Bool
deriving Repr, DecidableEq

/-- The `CacheManager.get_analysis_result`: `None` on a miss; a row whose
payload columns fail to decode raises inside the `try` and also yields
`None`. -/
def get_analysis_result (db : CacheDB) (pmid : String) : Option AnalysisGet :=
  match db.analysis_cache pmid with
  | none => none
  | some row =>
    match json_loads row.analysis_data.data, json_loads row.metadata.data with
    | some a, some m => some ⟨a, m, row.timestamp, row.source, row.confidence, true⟩
    | _, _ => none

/-- The `CacheManager.store_metadata`. -/
def store_metadata (db : CacheDB) (pmid : String) (metadata : Json) (source : String)
    (now : String) : Bool × CacheDB :=
  (true,
   { db with
     metadata_cache := fun k =>
       if k = pmid then some ⟨json_dumps metadata, now, source⟩ else db.metadata_cache k })

/-- The dict returned by `CacheManager.get_metadata`. -/
structure MetadataGet where
  metadata : Json
  timestamp : String
  source : String
  cached : Bool
deriving Repr, DecidableEq

/-- The `CacheManager.get_metadata`. -/
def get_metadata (db : CacheDB) (pmid : String) : Option MetadataGet :=
  match db.metadata_cache pmid with
  | none => none
  | some row =>
    match json_loads row.metadata.data with
    | some m => some ⟨m, row.timestamp, row.source, true⟩
    | none => none

/-- The `CacheManager.store_fulltext` (the text is stored raw). -/
def store_fulltext (db : CacheDB) (pmid : String) (fulltext : String) (source : String)
    (now : String) : Bool × CacheDB :=
  (true,
   { db with
     fulltext_cache := fun k =>
       if k = pmid then some ⟨fulltext, now, source⟩ else db.fulltext_cache k })

/-- The dict returned by `CacheManager.get_fulltext`. -/
structure FulltextGet where
  fulltext : String
  timestamp : String
  source : String
  cached : Bool
deriving Repr, DecidableEq

/-- The `CacheManager.get_fulltext`. -/
def get_fulltext (db : CacheDB) (pmid : String) : Option FulltextGet :=
  (db.fulltext_cache pmid).map fun row => ⟨row.fulltext, row.timestamp, row.source, true⟩

/-! ### `is_cache_valid` and `datetime.fromisoformat` -/

/-- Exactly `n` decimal digits. -/
def parseNDigits (n : Nat) (s : List Char) : Option (Nat × List Char) :=
  let pre := s.take n
  if pre.length = n ∧ pre.all isAsciiDigit then some (digitsToNat pre, s.drop n) else none

/-- Gregorian leap year. -/
def isLeapYear (y : Nat) : Bool := y % 4 = 0 && (y % 100 ≠ 0 || y % 400 = 0)

/-- Length of a month. -/
def daysInMonth (y m : Nat) : Nat :=
  if m = 2 then (if isLeapYear y then 29 else 28)
  else if m = 4 ∨ m = 6 ∨ m = 9 ∨ m = 11 then 30
  else 31

/-- Days in the months before month `m` of year `y`. -/
def daysBeforeMonth (y m : Nat) : Nat :=
  ((List.range (m - 1)).map fun i => daysInMonth y (i + 1)).sum

/-- Day count of a civil date from year 1 (proleptic Gregorian). -/
def civilDays (y m d : Nat) : Nat :=
  (y - 1) * 365 + (y - 1) / 4 - (y - 1) / 100 + (y - 1) / 400 + daysBeforeMonth y m + (d - 1)

/-- The `datetime.fromisoformat`, as a total timestamp in seconds:
`YYYY-MM-DD`, optionally a one-character separator and `HH:MM[:SS[.f…f]]`
(1–6 fractional digits).  A timezone suffix makes the later naive/aware
subtraction in `is_cache_valid` raise, which the function's `except` turns
into `False` — such strings are folded into parse failure here. -/
def fromisoformat (s : List Char) : Option ℚ :=
  match parseNDigits 4 s with
  | none => none
  | some (y, s1) =>
    match s1 with
    | '-' :: s2 =>
      match parseNDigits 2 s2 with
      | none => none
      | some (mo, s3) =>
        match s3 with
        | '-' :: s4 =>
          match parseNDigits 2 s4 with
          | none => none
          | some (d, s5) =>
            if y = 0 ∨ mo = 0 ∨ mo > 12 ∨ d = 0 ∨ d > daysInMonth y mo then none
            else
              let base : ℚ := (civilDays y mo d : ℚ) * 86400
              match s5 with
              | [] => some base
              | _ :: s6 =>
                match parseNDigits 2 s6 with
                | none => none
                | some (hh, s7) =>
                  match s7 with
                  | ':' :: s8 =>
                    match parseNDigits 2 s8 with
                    | none => none
                    | some (mi, s9) =>
                      if hh > 23 ∨ mi > 59 then none
                      else
                        let hm : ℚ := base + (hh : ℚ) * 3600 + (mi : ℚ) * 60
                        match s9 with
                        | [] => some hm
                        | ':' :: s10 =>
                          match parseNDigits 2 s10 with
                          | none => none
                          | some (ss, s11) =>
                            if ss > 59 then none
                            else
                              match s11 with
                              | [] => some (hm + (ss : ℚ))
                              | '.' :: s12 =>
                                let fd := s12.takeWhile isAsciiDigit
                                if fd.isEmpty ∨ fd.length > 6 ∨ ¬ (s12.drop fd.length).isEmpty
                                then none
                                else
                                  some (hm + (ss : ℚ) +
                                    (digitsToNat fd : ℚ) / ((10 : ℚ) ^ fd.length))
                              | _ => none
                        | _ => none
                  | _ => none
        | _ => none
    | _ => none

/-- The `CacheManager.is_cache_valid`: `datetime.now()` is the `now` argument
(seconds on the same scale as `fromisoformat`); every failure inside the
`try` — in particular an unparsable timestamp — returns `False`. -/
def is_cache_valid (now : ℚ) (timestamp : String) (max_age_hours : Int) : Bool :=
  match fromisoformat timestamp.data with
  | none => false
  | some cache_time => decide (now - cache_time < (max_age_hours : ℚ) * 3600)

/-! ## Specification-side definitions

Definitions in this block follow the words of the specification (or of an
amended claim), to be compared with the source-derived definitions above. -/

/-- The `value is None ⇔ status == "ABSENT"` invariant of the spec, for a
per-field result dict. -/
def fieldInvariant (r : PyFieldResult) : Prop :=
  r.value = none ↔ r.status = .str "ABSENT"

/-- Scan for the end of a balanced brace span (depth-counting). -/
def scanBalanced : List Char → Nat → List Char → Option (List Char)
  | [], _, _ => none
  | c :: rest, depth, acc =>
    if c = '{' then scanBalanced rest (depth + 1) (acc ++ [c])
    else if c = '}' then
      (if depth = 1 then some (acc ++ [c]) else scanBalanced rest (depth - 1) (acc ++ [c]))
    else scanBalanced rest depth (acc ++ [c])

/-- Modelled from the spec's words: the first balanced brace span — the
substring starting at the first `\x7b` whose braces balance. -/
def first_balanced_span (s : List Char) : Option (List Char) :=
  match s.dropWhile (· ≠ '{') with
  | [] => none
  | t => scanBalanced t 0 []

/-- Modelled from the amended claim's words: the substring from the first
`\x7b` through the last `\x7d` when one exists after the other, else the
whole text. -/
def amended_span (s : List Char) : List Char :=
  match s.findIdx? (· = '{'), s.reverse.findIdx? (· = '}') with
  | some i, some j =>
    let last := s.length - 1 - j
    if i ≤ last then (s.drop i).take (last + 1 - i) else s
  | _, _ => s

/-- Modelled from the claim's words (C7): the digit group a single pattern
yields — the last captured digit group of its `re.search` match, if any. -/
def pattern_digit_yield (m : Matcher) (t : List Char) : Option (List Char) :=
  match mSearch m t with
  | none => none
  | some caps => ((caps.filterMap id).filter pyIsDigit).getLast?

/-- The numeric confidence of a field dict as the claim reads it (missing
defaults to 0). -/
def spec_field_confidence (fd : List (String × Json)) : ℚ :=
  match getKey fd "confidence" with
  | some (.num q) => q
  | _ => 0.0

/-- Modelled from the claim's words (C4): the per-field score before
aggregate weighting — a PRESENT field with a non-empty, non-placeholder
content value contributes its confidence boosted by +0.1 capped at 1.0. -/
def spec_item_score (field_name : String) (fd : List (String × Json)) : ℚ :=
  let conf := spec_field_confidence fd
  let status := (getKey fd "status").getD (.str "ABSENT")
  if status = .str "PRESENT" then
    match (getKey fd (get_content_key_for_field field_name)).getD (.str "") with
    | .str s =>
      if s ≠ "" ∧ ¬ (["unknown", "not specified", ""].contains (pyLower s.data).asString) then
        min 1.0 (conf + 0.1)
      else conf
    | _ => conf
  else if status = .str "PARTIALLY_PRESENT" then conf
  else 0.0

/-- The per-field scores of a result dict (dict-valued entries other than
the two meta keys). -/
def spec_scores (d : List (String × Json)) : List ℚ :=
  d.filterMap fun kv =>
    if kv.1 = "missing_fields" ∨ kv.1 = "curation_preparation_summary" then none
    else
      match kv.2 with
      | .obj fd => some (spec_item_score kv.1 fd)
      | _ => none

/-- Modelled from the claim's words (C4, as stated): scores ≥ 0.8 weighted
by ×1.2 **capped at 1.0**, document confidence the plain arithmetic mean. -/
def spec_enhanced_confidence (d : List (String × Json)) : ℚ :=
  let ws := (spec_scores d).map fun s => if s ≥ 0.8 then min 1.0 (s * 1.2) else s
  if ws.isEmpty then 0.0 else ws.sum / (ws.length : ℚ)

/-- Modelled from the amended claim's words (C4): scores ≥ 0.8 weighted by
×1.2 uncapped, the arithmetic mean capped at 1.0 at the end. -/
def spec_enhanced_confidence_amended (d : List (String × Json)) : ℚ :=
  let ws := (spec_scores d).map fun s => if s ≥ 0.8 then s * 1.2 else s
  if ws.isEmpty then 0.0 else min 1.0 (ws.sum / (ws.length : ℚ))

/-- Well-typedness of one result entry: a dict field carries a numeric (or
missing) confidence and a string (or missing) content value — the scope on
which the claim's arithmetic reading is meaningful. -/
def well_typed_item (field_name : String) : Json → Bool
  | .obj fd =>
    (match getKey fd "confidence" with
     | none => true
     | some (.num _) => true
     | some _ => false) &&
    (match (getKey fd (get_content_key_for_field field_name)).getD (.str "") with
     | .str _ => true
     | _ => false)
  | _ => true

/-- Well-typedness of a whole result dict. -/
def well_typed (d : List (String × Json)) : Bool :=
  d.all fun kv => well_typed_item kv.1 kv.2

/-- The default ABSENT structure the normalization table assigns to a
field key. -/
def default_structure (f : String) : List (String × Json) :=
  ((required_fields.find? fun p => p.1 = f).map Prod.snd).getD []

/-! ## Shared lemmas about dict operations -/

theorem getKey_setKey_self (d : List (String × Json)) (k : String) (v : Json) :
    getKey (setKey d k v) k = some v := by
  induction d with
  | nil => simp [setKey, getKey]
  | cons kv rest ih =>
    obtain ⟨k', v'⟩ := kv
    by_cases h : k' = k
    · simp [setKey, getKey, h]
    · simp [setKey, getKey, h, ih]

theorem getKey_setKey_ne (d : List (String × Json)) (k k' : String) (v : Json)
    (h : k' ≠ k) : getKey (setKey d k' v) k = getKey d k := by
  induction d with
  | nil => simp [setKey, getKey, h]
  | cons kv rest ih =>
    obtain ⟨k0, v0⟩ := kv
    by_cases h0 : k0 = k'
    · simp [setKey, getKey, h0, h]
    · by_cases h1 : k0 = k
      · simp [setKey, getKey, h0, h1, Ne.symm h]
      · simp [setKey, getKey, h0, h1, ih]

theorem getKey_isSome_of_mem (l : List (String × Json)) (kv : String × Json)
    (h : kv ∈ l) : (getKey l kv.1).isSome = true := by
  induction l with
  | nil => cases h
  | cons hd tl ih =>
    obtain ⟨k0, v0⟩ := hd
    rcases List.mem_cons.mp h with h | h
    · subst h; simp [getKey]
    · by_cases h0 : k0 = kv.1
      · simp [getKey, h0]
      · simp [getKey, h0, ih h]

theorem getKey_setKey_isSome (d : List (String × Json)) (k j : String) (v : Json)
    (h : (getKey d j).isSome = true) : (getKey (setKey d k v) j).isSome = true := by
  by_cases hk : k = j
  · subst hk; simp [getKey_setKey_self]
  · rwa [getKey_setKey_ne d j k v (by simpa using hk)]

/-- The sub-key fill step of the normalization loop. -/
def fillStep (fd : List (String × Json)) (kv : String × Json) : List (String × Json) :=
  if (getKey fd kv.1).isSome then fd else setKey fd kv.1 kv.2

theorem fill_foldl_isSome (dflt : List (String × Json)) (fd : List (String × Json))
    (j : String) (h : (getKey fd j).isSome = true) :
    (getKey (dflt.foldl fillStep fd) j).isSome = true := by
  induction dflt generalizing fd with
  | nil => simpa using h
  | cons hd tl ih =>
    simp only [List.foldl_cons]
    apply ih
    unfold fillStep
    split
    · exact h
    · exact getKey_setKey_isSome _ _ _ _ h

theorem fill_foldl_subkeys (dflt : List (String × Json)) (fd : List (String × Json)) :
    ∀ kv ∈ dflt, (getKey (dflt.foldl fillStep fd) kv.1).isSome = true := by
  induction dflt generalizing fd with
  | nil => intro kv h; cases h
  | cons hd tl ih =>
    intro kv h
    simp only [List.foldl_cons]
    rcases List.mem_cons.mp h with h | h
    · subst h
      apply fill_foldl_isSome
      unfold fillStep
      split
      · assumption
      · simp [getKey_setKey_self]
    · exact ih _ kv h

theorem normalize_field_self (d : List (String × Json)) (f : String)
    (dflt : List (String × Json)) :
    ∃ fd, getKey (normalize_field d f dflt) f = some (.obj fd) ∧
      ∀ kv ∈ dflt, (getKey fd kv.1).isSome = true := by
  unfold normalize_field
  rcases h : getKey d f with _ | v
  · exact ⟨dflt, by rw [getKey_setKey_self], fun kv hm => getKey_isSome_of_mem _ _ hm⟩
  · cases v with
    | obj fd0 =>
      refine ⟨dflt.foldl fillStep fd0, ?_, fill_foldl_subkeys dflt fd0⟩
      rw [getKey_setKey_self]
      rfl
    | null => exact ⟨dflt, by rw [getKey_setKey_self], fun kv hm => getKey_isSome_of_mem _ _ hm⟩
    | bool b => exact ⟨dflt, by rw [getKey_setKey_self], fun kv hm => getKey_isSome_of_mem _ _ hm⟩
    | num q => exact ⟨dflt, by rw [getKey_setKey_self], fun kv hm => getKey_isSome_of_mem _ _ hm⟩
    | str s => exact ⟨dflt, by rw [getKey_setKey_self], fun kv hm => getKey_isSome_of_mem _ _ hm⟩
    | arr xs => exact ⟨dflt, by rw [getKey_setKey_self], fun kv hm => getKey_isSome_of_mem _ _ hm⟩

theorem normalize_field_none (d : List (String × Json)) (f : String)
    (dflt : List (String × Json)) (h : getKey d f = none) :
    getKey (normalize_field d f dflt) f = some (.obj dflt) := by
  unfold normalize_field
  rw [h, getKey_setKey_self]

theorem normalize_field_other (d : List (String × Json)) (f f' : String)
    (dflt : List (String × Json)) (h : f' ≠ f) :
    getKey (normalize_field d f' dflt) f = getKey d f := by
  unfold normalize_field
  rcases getKey d f' with _ | v
  · exact getKey_setKey_ne d f f' _ h
  · cases v <;> exact getKey_setKey_ne d f f' _ h

theorem foldl_normalize_other (fields : List (String × List (String × Json)))
    (d : List (String × Json)) (f : String) (h : ∀ p ∈ fields, p.1 ≠ f) :
    getKey (fields.foldl (fun d p => normalize_field d p.1 p.2) d) f = getKey d f := by
  induction fields generalizing d with
  | nil => rfl
  | cons hd tl ih =>
    simp only [List.foldl_cons]
    rw [ih _ fun p hp => h p (List.mem_cons_of_mem hd hp),
        normalize_field_other d f hd.1 hd.2 (h hd (List.mem_cons_self hd tl))]

theorem foldl_normalize_mem (fields : List (String × List (String × Json)))
    (d : List (String × Json)) (f : String) (dflt : List (String × Json))
    (h : (f, dflt) ∈ fields) (hnd : (fields.map Prod.fst).Nodup) :
    ∃ fd, getKey (fields.foldl (fun d p => normalize_field d p.1 p.2) d) f = some (.obj fd) ∧
      ∀ kv ∈ dflt, (getKey fd kv.1).isSome = true := by
  induction fields generalizing d with
  | nil => cases h
  | cons hd tl ih =>
    simp only [List.foldl_cons]
    rw [List.map_cons, List.nodup_cons] at hnd
    rcases List.mem_cons.mp h with h | h
    · subst h
      obtain ⟨fd, hfd, hsub⟩ := normalize_field_self d f dflt
      refine ⟨fd, ?_, hsub⟩
      rw [foldl_normalize_other tl _ f ?_, hfd]
      intro p hp e
      exact hnd.1 (by rw [← e]; exact List.mem_map.mpr ⟨p, hp, rfl⟩)
    · exact ih _ h hnd.2

theorem foldl_normalize_none (fields : List (String × List (String × Json)))
    (d : List (String × Json)) (f : String) (dflt : List (String × Json))
    (h : (f, dflt) ∈ fields) (hnd : (fields.map Prod.fst).Nodup)
    (h0 : getKey d f = none) :
    getKey (fields.foldl (fun d p => normalize_field d p.1 p.2) d) f = some (.obj dflt) := by
  induction fields generalizing d with
  | nil => cases h
  | cons hd tl ih =>
    simp only [List.foldl_cons]
    rw [List.map_cons, List.nodup_cons] at hnd
    rcases List.mem_cons.mp h with h | h
    · subst h
      rw [foldl_normalize_other tl _ f ?_, normalize_field_none d f dflt h0]
      intro p hp e
      exact hnd.1 (by rw [← e]; exact List.mem_map.mpr ⟨p, hp, rfl⟩)
    · have hne : hd.1 ≠ f := by
        intro e
        exact hnd.1 (by rw [e]; exact List.mem_map.mpr ⟨(f, dflt), h, rfl⟩)
      exact ih _ h hnd.2
        (by rw [normalize_field_other d f hd.1 hd.2 hne]; exact h0)

/-! ## Claim C2 -/

/-- C2: for every dictionary decoded from the combined-mode response,
`_validate_and_normalize_json` returns a dictionary in which each of the
six field keys is present — a missing key is filled with the default
ABSENT structure and missing sub-keys of a present field are
default-filled — and whose `missing_fields` entry equals exactly the list
of field keys whose status after normalization is not `"PRESENT"`. -/
theorem c2_normalization_default_fill (d : List (String × Json)) :
    (∀ f ∈ FIELD_KEYS, ∃ fd,
       getKey (validate_and_normalize_json d) f = some (.obj fd) ∧
       ∀ kv ∈ default_structure f, (getKey fd kv.1).isSome = true) ∧
    (∀ f ∈ FIELD_KEYS, getKey d f = none →
       getKey (validate_and_normalize_json d) f = some (.obj (default_structure f))) ∧
    getKey (validate_and_normalize_json d) "missing_fields" =
      some (.arr ((FIELD_KEYS.filter fun f =>
        decide (field_status (validate_and_normalize_json d) f ≠ some (.str "PRESENT"))).map
          Json.str)) := by
  have hnd : (required_fields.map Prod.fst).Nodup := by decide
  have hmemne : ∀ f ∈ FIELD_KEYS,
      "missing_fields" ≠ f ∧ "curation_preparation_summary" ≠ f ∧
        (f, default_structure f) ∈ required_fields := by with_unfolding_all decide
  set D := required_fields.foldl (fun d fd => normalize_field d fd.1 fd.2) d with hD
  set MF := FIELD_KEYS.filter fun f => decide (field_status D f ≠ some (Json.str "PRESENT"))
    with hMF
  have hval : validate_and_normalize_json d =
      setKey (setKey D "missing_fields" (.arr (MF.map Json.str)))
        "curation_preparation_summary" (.str (generate_curation_summary MF)) := rfl
  rw [hval]
  have hcne : ("curation_preparation_summary" : String) ≠ "missing_fields" := by decide
  refine ⟨?_, ?_, ?_⟩
  · intro f hf
    obtain ⟨h1, h2, h3⟩ := hmemne f hf
    obtain ⟨fd, hfd, hsub⟩ := foldl_normalize_mem required_fields d f (default_structure f) h3 hnd
    refine ⟨fd, ?_, hsub⟩
    rw [getKey_setKey_ne _ _ _ _ h2, getKey_setKey_ne _ _ _ _ h1]
    exact hfd
  · intro f hf h0
    obtain ⟨h1, h2, h3⟩ := hmemne f hf
    rw [getKey_setKey_ne _ _ _ _ h2, getKey_setKey_ne _ _ _ _ h1]
    exact foldl_normalize_none required_fields d f (default_structure f) h3 hnd h0
  · rw [getKey_setKey_ne _ _ _ _ hcne, getKey_setKey_self]
    have hMF2 : MF = FIELD_KEYS.filter fun f =>
        decide (field_status
          (setKey (setKey D "missing_fields" (.arr (MF.map Json.str)))
            "curation_preparation_summary" (.str (generate_curation_summary MF))) f ≠
          some (.str "PRESENT")) := by
      rw [hMF]
      apply List.filter_congr
      intro f hf
      obtain ⟨h1, h2, _⟩ := hmemne f hf
      unfold field_status
      rw [getKey_setKey_ne _ _ _ _ h2, getKey_setKey_ne _ _ _ _ h1]
    rw [← hMF2]

/-- Scenario-D-style decoded reply omitting `taxa_level`; C2 fills it with
the default ABSENT structure. -/
theorem c2_normalization_default_fill_witness :
    ("taxa_level" ∈ FIELD_KEYS) ∧
    getKey [("host_species",
              Json.obj [("primary", Json.str "human"), ("confidence", Json.num 0.9),
                        ("status", Json.str "PRESENT")])] "taxa_level" = none ∧
    getKey (validate_and_normalize_json
        [("host_species",
          Json.obj [("primary", Json.str "human"), ("confidence", Json.num 0.9),
                    ("status", Json.str "PRESENT")])]) "taxa_level" =
      some (.obj (default_structure "taxa_level")) :=
  ⟨by with_unfolding_all decide, by with_unfolding_all decide,
   (c2_normalization_default_fill _).2.1 "taxa_level" (by with_unfolding_all decide)
     (by with_unfolding_all decide)⟩

/-! ## Claim C6 -/

/-- C6: the heuristic extractor on the Scenario A abstract yields the six
PRESENT fields with values human / gut / ibd (matched by the
inflammatory-bowel-disease pattern) / 16s / genus / 48, each with the
fixed heuristic confidence 0.6. -/
theorem c6_scenario_a_heuristic :
    extract "Fecal samples (n=48) from human IBD patients were analyzed via 16S rRNA sequencing at the genus level" =
      [("host_species", ⟨"PRESENT", some "human", 0.6, none, none⟩),
       ("body_site", ⟨"PRESENT", some "gut", 0.6, none, none⟩),
       ("condition", ⟨"PRESENT", some "ibd", 0.6, none, none⟩),
       ("sequencing_type", ⟨"PRESENT", some "16s", 0.6, none, none⟩),
       ("taxa_level", ⟨"PRESENT", some "genus", 0.6, none, none⟩),
       ("sample_size", ⟨"PRESENT", some "48", 0.6, none, none⟩)] ∧
    (mSearch (condition_patterns.headD mEps) "ibd".data).isSome = true := by
  with_unfolding_all decide

/-! ## Claim C7 -/

theorem sample_size_go_eq_findSome (pats : List Matcher) (t : List Char) :
    sample_size_go pats t = pats.findSome? fun m => pattern_digit_yield m t := by
  induction pats with
  | nil => rfl
  | cons m ms ih =>
    have hy : pattern_digit_yield m t =
        match mSearch m t with
        | none => none
        | some caps => ((caps.filterMap id).filter pyIsDigit).getLast? := rfl
    rw [List.findSome?_cons, hy]
    unfold sample_size_go
    rcases mSearch m t with _ | caps
    · exact ih
    · rcases hl : ((caps.filterMap id).filter pyIsDigit).getLast? with _ | v
      · simp only [hl]
        exact ih
      · simp only [hl]

/-- C7: the sample-size entry of the heuristic extractor equals the first
digit-group yield over `SAMPLE_SIZE_REGEX` in its fixed order (the
`n\s*=\s*(\d{2,4})` pattern first), each pattern yielding the last
captured digit group of its match; no yield gives the ABSENT field. -/
theorem c7_sample_size_priority (text : String) :
    (extract text).getLast? =
      some ("sample_size",
        mk_field ((SAMPLE_SIZE_REGEX.findSome? fun m =>
          pattern_digit_yield m (pyLower text.data)).map List.asString)) := by
  have h := sample_size_go_eq_findSome SAMPLE_SIZE_REGEX (pyLower text.data)
  simp [extract, sample_size_value, h]

/-! ## Claim C8 -/

/-- C8: every `AnalysisResult` that `analyze_paper_simple` returns carries
exactly the six canonical field keys, in canonical order, whatever the
per-field outcomes were. -/
theorem c8_six_canonical_fields (pmid : String) (texts : PaperTexts)
    (outcomes : String → ChatOutcome) (ts model : String) (r : AnalysisResult)
    (h : analyze_paper_simple pmid texts outcomes ts model = some r) :
    r.fields.map Prod.fst =
      ["host_species", "body_site", "condition", "sequencing_type", "taxa_level",
       "sample_size"] := by
  unfold analyze_paper_simple at h
  split at h
  · simp at h
  · split at h
    · dsimp only at h
      split at h
      · simp at h
      · injection h with h'
        rw [← h']
        simp [ESSENTIAL_FIELDS]
    · dsimp only at h
      split at h
      · simp at h
      · injection h with h'
        rw [← h']
        simp [ESSENTIAL_FIELDS]

/-- C8 at a concrete run where every per-field call times out. -/
theorem c8_six_canonical_fields_witness :
    ({pmid := "1", title := "T", authors := [], journal := "", publication_date := "",
      fields := ESSENTIAL_FIELDS.map fun fq => (fq.1, create_empty_field_result fq.1),
      analysis_timestamp := "ts", model_used := "gemini"} : AnalysisResult).fields.map
        Prod.fst =
      ["host_species", "body_site", "condition", "sequencing_type", "taxa_level",
       "sample_size"] :=
  c8_six_canonical_fields "1" ⟨"T", "Abstract text", "", [], "", ""⟩ (fun _ => .timeout)
    "ts" "gemini" _ (by with_unfolding_all rfl)

/-! ## Claim C9 -/

/-- C9: storing twice under the same (kind, id) is an upsert — a get
returns the second payload only, for each of the three record kinds. -/
theorem c9_cache_upsert :
    (∀ (db : CacheDB) (pmid : String) (d1 m1 d2 m2 : Json) (s1 s2 : String) (c1 c2 : ℚ)
       (t1 t2 : String),
      json_loads (json_dumps d2).data = some d2 →
      json_loads (json_dumps m2).data = some m2 →
      get_analysis_result
        (store_analysis_result
          (store_analysis_result db pmid d1 m1 s1 c1 t1).2 pmid d2 m2 s2 c2 t2).2 pmid =
        some ⟨d2, m2, t2, s2, c2, true⟩) ∧
    (∀ (db : CacheDB) (pmid : String) (m1 m2 : Json) (s1 s2 t1 t2 : String),
      json_loads (json_dumps m2).data = some m2 →
      get_metadata
        (store_metadata (store_metadata db pmid m1 s1 t1).2 pmid m2 s2 t2).2 pmid =
        some ⟨m2, t2, s2, true⟩) ∧
    (∀ (db : CacheDB) (pmid : String) (f1 f2 : String) (s1 s2 t1 t2 : String),
      get_fulltext
        (store_fulltext (store_fulltext db pmid f1 s1 t1).2 pmid f2 s2 t2).2 pmid =
        some ⟨f2, t2, s2, true⟩) := by
  refine ⟨?_, ?_, ?_⟩
  · intro db pmid d1 m1 d2 m2 s1 s2 c1 c2 t1 t2 h2a h2m
    simp [store_analysis_result, get_analysis_result, h2a, h2m]
  · intro db pmid m1 m2 s1 s2 t1 t2 h2m
    simp [store_metadata, get_metadata, h2m]
  · intro db pmid f1 f2 s1 s2 t1 t2
    simp [store_fulltext, get_fulltext]

/-- C9 at concrete payloads (the round-trip hypotheses hold for them). -/
theorem c9_cache_upsert_witness :
    get_analysis_result
      (store_analysis_result
        (store_analysis_result ⟨fun _ => none, fun _ => none, fun _ => none⟩ "42"
          (.str "first") (.obj []) "gemini" 0.1 "t1").2 "42"
        (.str "second") (.obj [("k", .num 2)]) "pubmed" 0.9 "t2").2 "42" =
      some ⟨.str "second", .obj [("k", .num 2)], "t2", "pubmed", 0.9, true⟩ :=
  c9_cache_upsert.1 ⟨fun _ => none, fun _ => none, fun _ => none⟩ "42"
    (.str "first") (.obj []) (.str "second") (.obj [("k", .num 2)]) "gemini" "pubmed" 0.1 0.9
    "t1" "t2" (by with_unfolding_all decide) (by with_unfolding_all decide)

/-! ## Claim C10 -/

/-- C10: `is_cache_valid` is total — an unparsable timestamp yields
`false`, and a parsable one yields exactly the age comparison. -/
theorem c10_is_cache_valid_total (now : ℚ) (timestamp : String) (max_age_hours : Int) :
    (fromisoformat timestamp.data = none →
      is_cache_valid now timestamp max_age_hours = false) ∧
    (∀ t, fromisoformat timestamp.data = some t →
      is_cache_valid now timestamp max_age_hours =
        decide (now - t < (max_age_hours : ℚ) * 3600)) := by
  constructor
  · intro h
    simp [is_cache_valid, h]
  · intro t h
    simp [is_cache_valid, h]

/-- C10 at a concrete unparsable timestamp. -/
theorem c10_is_cache_valid_total_witness :
    fromisoformat "not-a-date".data = none ∧ is_cache_valid 0 "not-a-date" 24 = false :=
  ⟨by decide, (c10_is_cache_valid_total 0 "not-a-date" 24).1 (by decide)⟩

/-! ## Claim C1 -/

/-- C1 fails on the code: the JSON branch of `analyze_single_field` passes
the decoded `value`/`status` pair through unchanged, so a reply pairing a
non-null value with status ABSENT yields a field result violating the
invariant. -/
theorem c1_invariant_counterexample :
    (analyze_single_field "body_site"
      (.ok "\x7b\"value\": \"gut\", \"status\": \"ABSENT\", \"confidence\": 0.9\x7d"
        0.5)).value = some (.str "gut") ∧
    (analyze_single_field "body_site"
      (.ok "\x7b\"value\": \"gut\", \"status\": \"ABSENT\", \"confidence\": 0.9\x7d"
        0.5)).status = .str "ABSENT" := by
  with_unfolding_all decide

theorem fieldInvariant_fallback_shape (a : String) (c : ℚ) (st : String) :
    fieldInvariant
      ⟨if st ≠ "ABSENT" then some (.str a) else none, .str st, c,
       .str (if st ≠ "ABSENT" then "" else "Information not found in the paper")⟩ := by
  by_cases hs : st = "ABSENT" <;> simp [fieldInvariant, hs]

/-- C1 amended: the `value is None ⇔ status == ABSENT` invariant holds for
the heuristic extractor's `_mk_field`, for the empty/error result, for the
timeout and exception paths, and for the free-text fallback branch of
`analyze_single_field` (when no JSON object is decoded); the successful
JSON branch copies value and status through unchanged, so there it holds
only when the model's reply already satisfies it. -/
theorem c1_value_none_iff_absent_amended :
    (∀ v, (mk_field v).value = none ↔ (mk_field v).status = "ABSENT") ∧
    (∀ fn, fieldInvariant (create_empty_field_result fn)) ∧
    (∀ fn, fieldInvariant (analyze_single_field fn .timeout)) ∧
    (∀ fn msg, fieldInvariant (analyze_single_field fn (.exn msg))) ∧
    (∀ fn answer conf, extract_field_json answer = none →
       fieldInvariant (analyze_single_field fn (.ok answer conf))) := by
  refine ⟨?_, ?_, ?_, ?_, ?_⟩
  · intro v
    cases v <;> simp [mk_field]
  · intro fn
    simp [fieldInvariant, create_empty_field_result]
  · intro fn
    simp [fieldInvariant, analyze_single_field, create_empty_field_result]
  · intro fn msg
    simp [fieldInvariant, analyze_single_field, create_empty_field_result]
  · intro fn answer conf h
    unfold analyze_single_field
    dsimp only
    rw [h]
    dsimp only
    split
    · simp [fieldInvariant, create_empty_field_result]
    · exact fieldInvariant_fallback_shape _ _ _

/-- C1 amended at a reply with no decodable JSON object. -/
theorem c1_value_none_iff_absent_amended_witness :
    extract_field_json "no json here" = none ∧
    fieldInvariant (analyze_single_field "host_species" (.ok "no json here" 0.9)) :=
  ⟨by decide,
   c1_value_none_iff_absent_amended.2.2.2.2 "host_species" "no json here" 0.9 (by decide)⟩

/-! ## Claim C3 -/

/-- C3 fails on the code: the timeout branch of `analyze_paper_enhanced`
does return status "error" with confidence 0.0, but its `key_findings` is
the empty object `\x7b\x7d`, which contains none of the six field keys —
not six explicit ABSENT structures. -/
theorem c3_timeout_counterexample :
    (analyze_paper_enhanced true .timeout).status = some "error" ∧
    (analyze_paper_enhanced true .timeout).confidence = 0.0 ∧
    (analyze_paper_enhanced true .timeout).key_findings = "\x7b\x7d" ∧
    json_loads (analyze_paper_enhanced true .timeout).key_findings.data = some (.obj []) ∧
    (∀ f ∈ FIELD_KEYS, getKey ([] : List (String × Json)) f = none) := by
  with_unfolding_all decide

theorem pyStrip_isEmpty_iff (l : List Char) :
    (pyStrip l).isEmpty = true ↔ l.all isPySpace = true := by
  simp only [pyStrip, List.isEmpty_iff, List.reverse_eq_nil_iff,
    List.dropWhile_eq_nil_iff, List.all_eq_true, List.mem_reverse]
  constructor
  · intro h x hx
    have hsplit : List.takeWhile isPySpace l ++ List.dropWhile isPySpace l = l :=
      List.takeWhile_append_dropWhile isPySpace l
    rw [← hsplit] at hx
    rcases List.mem_append.mp hx with hx | hx
    · exact List.mem_takeWhile_imp hx
    · exact h x hx
  · intro h x hx
    exact h x (List.dropWhile_subset _ hx)

/-- C3 amended: the combined-mode extractor's timeout result has status
"error", confidence 0.0 and the empty findings object `\x7b\x7d` (no
per-field entries); the per-field path turns a timeout into the ABSENT
default; and the orchestrator still returns a well-formed result whose six
fields all carry the ABSENT default when every per-field call times out. -/
theorem c3_timeout_amended :
    analyze_paper_enhanced true .timeout =
      ⟨some "Request timed out", some "Timeout", "\x7b\x7d", 0.0, some "error"⟩ ∧
    (∀ fn, analyze_single_field fn .timeout =
      ⟨none, .str "ABSENT", 0.0, .str "Analysis failed or timed out"⟩) ∧
    (∀ (pmid : String) (texts : PaperTexts) (ts model : String),
      texts.abstract.data.all isPySpace = false →
      analyze_paper_simple pmid texts (fun _ => .timeout) ts model =
        some ⟨pmid, texts.title, texts.authors, texts.journal, texts.publication_date,
              ESSENTIAL_FIELDS.map fun fq => (fq.1, create_empty_field_result fq.1),
              ts, model⟩) := by
  refine ⟨rfl, fun fn => rfl, ?_⟩
  intro pmid texts ts model habs
  have habs' : texts.abstract ≠ "" := by
    intro e
    rw [e] at habs
    simp at habs
  unfold analyze_paper_simple
  rw [if_neg (by intro hc; exact habs' hc.2)]
  dsimp only
  have hstrip : ∀ tail : List Char,
      (pyStrip (texts.abstract.data ++ tail)).isEmpty = false := by
    intro tail
    rw [Bool.eq_false_iff]
    intro he
    have := (pyStrip_isEmpty_iff _).mp he
    rw [List.all_append] at this
    rw [(Bool.and_eq_true _ _).mp this |>.1] at habs
    cases habs
  split
  · rw [if_neg ?_]
    · rfl
    · rw [String.data_append, String.data_append]
      rw [List.append_assoc]
      rw [hstrip]
      simp
  · rw [if_neg ?_]
    · rfl
    · have := hstrip []
      rw [List.append_nil] at this
      rw [this]
      simp

/-- C3 amended at a concrete all-timeout run. -/
theorem c3_timeout_amended_witness :
    analyze_paper_simple "1" ⟨"T", "A", "", [], "", ""⟩ (fun _ => .timeout) "ts" "gemini" =
      some ⟨"1", "T", [], "", "",
            ESSENTIAL_FIELDS.map fun fq => (fq.1, create_empty_field_result fq.1),
            "ts", "gemini"⟩ :=
  c3_timeout_amended.2.2 "1" ⟨"T", "A", "", [], "", ""⟩ "ts" "gemini" (by decide)

/-! ## Claim C4 -/

/-- A normalized result with one PRESENT field at confidence 0.9 (the
other five ABSENT): its per-field score is 1.0, whose ×1.2 weighting the
code leaves uncapped. -/
def c4_example : List (String × Json) :=
  validate_and_normalize_json
    [("host_species",
      .obj [("primary", .str "human"), ("confidence", .num 0.9), ("status", .str "PRESENT")])]

/-- C4 fails on the code: the ×1.2 weighting is not capped at 1.0 per
field — only the final mean is capped — so the code's aggregate (0.2 =
1.2/6) differs from the claim's computation (1/6). -/
theorem c4_confidence_counterexample :
    calculate_enhanced_confidence c4_example = 0.2 ∧
    spec_enhanced_confidence c4_example = 1 / 6 ∧
    calculate_enhanced_confidence c4_example ≠ spec_enhanced_confidence c4_example := by
  with_unfolding_all decide

theorem confidence_score_item_well_typed (fn : String) (fd : List (String × Json))
    (h : well_typed_item fn (.obj fd) = true) :
    confidence_score_item fn fd = some (.num (spec_item_score fn fd)) := by
  unfold well_typed_item at h
  rw [Bool.and_eq_true] at h
  obtain ⟨hc, hv⟩ := h
  obtain ⟨s, hs⟩ : ∃ s, (getKey fd (get_content_key_for_field fn)).getD (.str "") = .str s := by
    rcases hx : (getKey fd (get_content_key_for_field fn)).getD (.str "") with _ | b | q | cs | xs | kvs
    · rw [hx] at hv; simp at hv
    · rw [hx] at hv; simp at hv
    · rw [hx] at hv; simp at hv
    · exact ⟨cs, rfl⟩
    · rw [hx] at hv; simp at hv
    · rw [hx] at hv; simp at hv
  obtain ⟨fq, hfc, hsp⟩ : ∃ fq, (getKey fd "confidence").getD (.num 0.0) = .num fq ∧
      spec_field_confidence fd = fq := by
    rcases hx : getKey fd "confidence" with _ | cj
    · exact ⟨0.0, rfl, by unfold spec_field_confidence; rw [hx]⟩
    · rcases cj with _ | b | q | t | xs | kvs
      · rw [hx] at hc; simp at hc
      · rw [hx] at hc; simp at hc
      · exact ⟨q, rfl, by unfold spec_field_confidence; rw [hx]⟩
      · rw [hx] at hc; simp at hc
      · rw [hx] at hc; simp at hc
      · rw [hx] at hc; simp at hc
  unfold confidence_score_item spec_item_score
  dsimp only
  rw [hsp, hfc, hs]
  by_cases hst : (getKey fd "status").getD (.str "ABSENT") = .str "PRESENT"
  · rw [if_pos hst, if_pos hst]
    by_cases hse : s = ""
    · subst hse
      simp [Json.truthy]
    · have htr : Json.truthy (.str s) = true := by
        simp only [Json.truthy, Bool.not_eq_true']
        rw [Bool.eq_false_iff]
        intro h
        have hd : s.data = [] := List.isEmpty_iff.mp h
        exact hse (String.ext hd)
      rw [htr]
      simp only [if_true]
      by_cases hp : ((pyLower s.data).asString = "unknown" ∨
          (pyLower s.data).asString = "not specified" ∨ (pyLower s.data).asString = "")
      · simp [hp, hse]
      · simp [hp, hse, jsonAsNum]
  · rw [if_neg hst, if_neg hst]
    by_cases hpp : (getKey fd "status").getD (.str "ABSENT") = .str "PARTIALLY_PRESENT"
    · simp [hpp]
    · simp [hpp]

theorem collect_scores_well_typed (d : List (String × Json))
    (h : well_typed d = true) :
    collect_confidence_scores d = some ((spec_scores d).map Json.num) := by
  induction d with
  | nil => rfl
  | cons kv rest ih =>
    rw [well_typed, List.all_cons, Bool.and_eq_true] at h
    obtain ⟨h1, h2⟩ := h
    have ih' : collect_confidence_scores rest = some ((spec_scores rest).map Json.num) :=
      ih h2
    obtain ⟨k, v⟩ := kv
    unfold collect_confidence_scores
    by_cases hk : k = "missing_fields" ∨ k = "curation_preparation_summary"
    · rw [if_pos hk]
      have hsp : spec_scores ((k, v) :: rest) = spec_scores rest := by
        simp [spec_scores, List.filterMap_cons, hk]
      rw [hsp]
      exact ih'
    · rw [if_neg hk]
      rcases v with _ | b | q | cs | xs | fd
      · have hsp : spec_scores ((k, Json.null) :: rest) = spec_scores rest := by
          simp [spec_scores, List.filterMap_cons, hk]
        rw [hsp]; exact ih'
      · have hsp : spec_scores ((k, Json.bool b) :: rest) = spec_scores rest := by
          simp [spec_scores, List.filterMap_cons, hk]
        rw [hsp]; exact ih'
      · have hsp : spec_scores ((k, Json.num q) :: rest) = spec_scores rest := by
          simp [spec_scores, List.filterMap_cons, hk]
        rw [hsp]; exact ih'
      · have hsp : spec_scores ((k, Json.str cs) :: rest) = spec_scores rest := by
          simp [spec_scores, List.filterMap_cons, hk]
        rw [hsp]; exact ih'
      · have hsp : spec_scores ((k, Json.arr xs) :: rest) = spec_scores rest := by
          simp [spec_scores, List.filterMap_cons, hk]
        rw [hsp]; exact ih'
      · have hsp : spec_scores ((k, Json.obj fd) :: rest) =
            spec_item_score k fd :: spec_scores rest := by
          simp [spec_scores, List.filterMap_cons, hk]
        dsimp only
        rw [hsp, List.map_cons, confidence_score_item_well_typed k fd h1, ih']

theorem scores_as_nums_map_num (l : List ℚ) :
    scores_as_nums (l.map Json.num) = some l := by
  induction l with
  | nil => rfl
  | cons q rest ih =>
    simp only [List.map_cons, scores_as_nums, List.mapM_cons]
    unfold scores_as_nums at ih
    rw [ih]
    rfl

/-- C4 amended: on well-typed normalized results the aggregate equals the
amended description — +0.1 boost capped at 1.0 per PRESENT field, ×1.2
weighting for scores ≥ 0.8 **uncapped**, and the arithmetic mean capped at
1.0 at the end. -/
theorem c4_confidence_amended (d : List (String × Json)) (h : well_typed d = true) :
    calculate_enhanced_confidence d = spec_enhanced_confidence_amended d := by
  unfold calculate_enhanced_confidence spec_enhanced_confidence_amended
  rw [collect_scores_well_typed d h]
  dsimp only
  rw [scores_as_nums_map_num]
  dsimp only
  rcases hs : spec_scores d with _ | ⟨q, rest⟩
  · simp
  · simp

/-- C4 amended at the counterexample input (which is well-typed). -/
theorem c4_confidence_amended_witness :
    well_typed c4_example = true ∧
    calculate_enhanced_confidence c4_example = spec_enhanced_confidence_amended c4_example :=
  ⟨by with_unfolding_all decide, c4_confidence_amended c4_example (by with_unfolding_all decide)⟩

/-! ## Claim C5 -/

theorem findIdx?_some_bound {α : Type} (p : α → Bool) :
    ∀ (l : List α) (s j : Nat), List.findIdx? p l s = some j → j < s + l.length := by
  intro l
  induction l with
  | nil =>
    intro s j h
    simp [List.findIdx?] at h
  | cons x xs ih =>
    intro s j h
    rw [List.findIdx?_cons] at h
    split at h
    · injection h with h'
      subst h'
      simp
    · have := ih (s + 1) j h
      simp only [List.length_cons]
      omega

/-- C5 fails on the code: the span selection takes the text from the first
`\x7b` to the **last** `\x7d`, not the first balanced span — on the
response `\x7b\x7d \x7b\x7d` the code attempts decoding on the whole text
(which fails, so it falls back), while the first balanced span `\x7b\x7d`
would decode successfully. -/
theorem c5_span_counterexample :
    extract_json_span "\x7b\x7d \x7b\x7d".data = "\x7b\x7d \x7b\x7d".data ∧
    first_balanced_span "\x7b\x7d \x7b\x7d".data = some "\x7b\x7d".data ∧
    "\x7b\x7d \x7b\x7d".data ≠ "\x7b\x7d".data ∧
    json_loads "\x7b\x7d \x7b\x7d".data = none ∧
    json_loads "\x7b\x7d".data = some (.obj []) ∧
    (analyze_paper_enhanced true (.ok "\x7b\x7d \x7b\x7d")).status = some "fallback" := by
  with_unfolding_all decide

theorem extract_json_span_eq_amended (s : List Char) :
    extract_json_span s = amended_span s := by
  unfold extract_json_span amended_span pyFind pyRfind pySlice
  rcases h1 : s.findIdx? (· = '{') with _ | i
  all_goals rcases h2 : s.reverse.findIdx? (· = '}') with _ | j
  all_goals dsimp only
  all_goals try rw [if_neg (by omega)]
  have hj : j < s.length := by
    have := findIdx?_some_bound (· = '}') s.reverse 0 j h2
    simpa using this
  by_cases hle : i ≤ s.length - 1 - j
  · rw [if_pos (by constructor <;> omega), if_pos hle]
    have htake : ((↑s.length - 1 - ↑j + 1 : Int).toNat - ((↑i : Int)).toNat) =
        s.length - 1 - j + 1 - i := by omega
    have hdrop : ((↑i : Int)).toNat = i := by omega
    rw [htake, hdrop]
  · rw [if_neg (by omega), if_neg hle]

/-- C5 amended: the tolerant span is the substring from the first `\x7b`
through the last `\x7d` (the whole stripped text when no such pair
exists), and structured decoding is attempted on exactly that span before
any fallback. -/
theorem c5_span_amended :
    (∀ s : List Char, extract_json_span s = amended_span s) ∧
    (∀ text : String, text ≠ "" →
      analyze_paper_enhanced true (.ok text) =
        match json_loads (amended_span (pyStrip text.data)) with
        | some (.obj kvs) =>
          ⟨none, none, json_dumps_indent2 (.obj (validate_and_normalize_json kvs)),
           calculate_enhanced_confidence (validate_and_normalize_json kvs), some "success"⟩
        | some _ =>
          ⟨some "Unexpected error: TypeError", some "TypeError", "\x7b\x7d", 0.0,
           some "error"⟩
        | none =>
          ⟨some "JSON parsing failed", none, json_dumps_indent2 (.obj create_fallback_json),
           0.0, some "fallback"⟩) := by
  refine ⟨extract_json_span_eq_amended, ?_⟩
  intro text h
  unfold analyze_paper_enhanced
  rw [if_neg (by simp)]
  dsimp only
  rw [if_neg h]
  rw [← extract_json_span_eq_amended]

/-- C5 amended at a brace-free response: decoding the whole text fails and
the fallback JSON is produced. -/
theorem c5_span_amended_witness :
    analyze_paper_enhanced true (.ok "x") =
      ⟨some "JSON parsing failed", none, json_dumps_indent2 (.obj create_fallback_json),
       0.0, some "fallback"⟩ := by
  have h := c5_span_amended.2 "x" (by decide)
  rw [show json_loads (amended_span (pyStrip "x".data)) = none from by decide] at h
  exact h

end Bioanalyzer
